import Mathlib

/-!
Verification of the task orchestration engine of
brianonbased-dev/holoscript-scientific-plugin.

The embedding follows src/src/narupa-orchestrator.ts (class NarupaOrchestrator)
and the NarupaProcessManager shutdown logic in src/src/types.ts.  Machine state
that the TypeScript code mutates in place is modelled by explicit state passing;
promise rejection is modelled by an explicit Boolean / Except channel; the
JavaScript Map is modelled by an association list with insertion-order set
semantics.
-/

namespace HoloOrch

/-- enum TaskStatus, narupa-orchestrator.ts lines 14-21. -/
inductive TaskStatus where
  | pending
  | running
  | completed
  | failed
  | waitingHitl
  | retrying
deriving DecidableEq, Repr

/-- interface TaskResult, narupa-orchestrator.ts lines 42-52.
Dates are modelled as Nat clock ticks; the `error` field is modelled by the
Boolean `hasError` (only presence of an error is observable in the claims). -/
structure TaskResult where
  taskId : String
  status : TaskStatus
  serverId : Option Nat := none
  port : Option Nat := none
  startTime : Nat
  endTime : Option Nat := none
  hasError : Bool := false
  retryCount : Nat
  hitlApproved : Option Bool := none
deriving DecidableEq, Repr

/-- interface Task, narupa-orchestrator.ts lines 26-37.  `config` is opaque to
the orchestrator (forwarded to the backend) and is modelled as a String tag.
`maxRetries` is `number | undefined` in the source and is only used through the
truthiness test `task.maxRetries && retryCount < task.maxRetries`, so
`undefined` and `0` behave identically; it is modelled as a Nat.  The type is an
inductive because `fallback` nests a Task. -/
inductive Task where
  | mk (id : String) (name : String) (type : String) (config : String)
      (dependencies : List String) (hitlGate : Bool) (fallback : Option Task)
      (maxRetries : Nat) (parallel : Bool) (capability : List String)

def Task.id : Task → String
  | .mk i _ _ _ _ _ _ _ _ _ => i

def Task.name : Task → String
  | .mk _ n _ _ _ _ _ _ _ _ => n

def Task.dependencies : Task → List String
  | .mk _ _ _ _ d _ _ _ _ _ => d

def Task.hitlGate : Task → Bool
  | .mk _ _ _ _ _ g _ _ _ _ => g

def Task.fallback : Task → Option Task
  | .mk _ _ _ _ _ _ f _ _ _ => f

def Task.maxRetries : Task → Nat
  | .mk _ _ _ _ _ _ _ m _ _ => m

def Task.parallel : Task → Bool
  | .mk _ _ _ _ _ _ _ _ p _ => p

def Task.capability : Task → List String
  | .mk _ _ _ _ _ _ _ _ _ c => c

/-- Environment of one run: the opaque worker backend and the approval
authority, indexed by a global start-attempt counter.  `startOk n` tells whether
the n-th `processManager.startServer` call (including the implicit
`initialize`) succeeds; `completionOk n` tells whether `waitForCompletion`
observes the server still running after the n-th start; `hitlCallback = none`
models `this.hitlCallback === null`. -/
structure Env where
  startOk : Nat → Bool
  serverPid : Nat → Nat
  serverPort : Nat → Nat
  hitlCallback : Option (Task → TaskResult → Bool)
  completionOk : Nat → Bool

/-- Result of one try block body of executeTask: either the completed result or
the result as it stands when an error is thrown (lines 181-231). -/
inductive AttemptOut where
  | ok (r : TaskResult)
  | err (r : TaskResult)
deriving DecidableEq, Repr

/-- One execution attempt: the try block of executeTask
(narupa-orchestrator.ts lines 181-231).  Sets RUNNING, starts the backend
(acquisition failure throws), applies the HITL gate (callback missing or denial
throws while the status is WAITING_HITL), waits for completion (unexpected stop
throws), else records COMPLETED.  `ctr` indexes the start attempt in `env`,
`now` stands for the Date read at completion time.  A thrown error sets the
result error field (line 234 runs first in the catch block). -/
def oneAttempt (env : Env) (t : Task) (r : TaskResult) (ctr now : Nat) : AttemptOut :=
  let r1 := { r with status := TaskStatus.running }
  if env.startOk ctr then
    let r2 := { r1 with serverId := some (env.serverPid ctr),
                        port := some (env.serverPort ctr) }
    if t.hitlGate then
      let rW := { r2 with status := TaskStatus.waitingHitl }
      match env.hitlCallback with
      | some cb =>
        let approved := cb t rW
        let rA := { rW with hitlApproved := some approved }
        if approved then
          let rR := { rA with status := TaskStatus.running }
          if env.completionOk ctr then
            AttemptOut.ok { rR with status := TaskStatus.completed, endTime := some now }
          else
            AttemptOut.err { rR with hasError := true }
        else
          AttemptOut.err { rA with hasError := true }
      | none => AttemptOut.err { rW with hasError := true }
    else
      if env.completionOk ctr then
        AttemptOut.ok { r2 with status := TaskStatus.completed, endTime := some now }
      else
        AttemptOut.err { r2 with hasError := true }
  else
    AttemptOut.err { r1 with hasError := true }

/-- The retry loop of executeTask on a single node (catch branch, lines
232-245, and the recursive re-entry at line 244).  `budget` is the remaining
retry budget `t.maxRetries - r.retryCount`; the source guard
`task.maxRetries && result.retryCount < task.maxRetries` holds exactly when the
budget is positive.  Returns the node outcome after the loop together with the
number of start attempts performed. -/
def attemptLoop (env : Env) (t : Task) (budget : Nat) (r : TaskResult)
    (ctr now : Nat) : AttemptOut × Nat :=
  match oneAttempt env t r ctr now with
  | .ok rr => (.ok rr, 1)
  | .err rr =>
    match budget with
    | 0 => (.err rr, 1)
    | b + 1 =>
      let rRetry := { rr with retryCount := rr.retryCount + 1,
                              status := TaskStatus.retrying }
      let out := attemptLoop env t b rRetry (ctr + 1) now
      (out.1, out.2 + 1)

/-- The fresh TaskResult created for a node (addTask lines 100-105 and the
fallback node at lines 252-257). -/
def freshResult (id : String) (now : Nat) : TaskResult :=
  { taskId := id, status := TaskStatus.pending, startTime := now, retryCount := 0 }

/-- Final state of one node together with the number of start attempts the
executor performed on it. -/
structure NodeOut where
  task : Task
  res : TaskResult
  attempts : Nat

/-- executeTask (narupa-orchestrator.ts lines 177-276) as a pure function: runs
the retry loop on the node; on exhausted retries substitutes the configured
fallback as a brand-new node (lines 248-264) and recurses on it, the original
result being returned exactly as it stood when the last error was thrown (the
early `return` at line 264 skips the FAILED marking at line 268); with no
fallback marks the node FAILED and rethrows (lines 268-272).  Returns the list
of node outcomes, original node first then the fallback chain, and whether the
returned promise rejects. -/
def execTask (env : Env) : Task → TaskResult → Nat → Nat → List NodeOut × Bool
  | t@(.mk _ _ _ _ _ _ fbOpt _ _ _), r, ctr, now =>
    match attemptLoop env t (t.maxRetries - r.retryCount) r ctr now with
    | (.ok rr, k) => ([⟨t, rr, k⟩], false)
    | (.err rr, k) =>
      match fbOpt with
      | some fb =>
        let sub := execTask env fb (freshResult fb.id now) (ctr + k) now
        (⟨t, rr, k⟩ :: sub.1, sub.2)
      | none =>
        ([⟨t, { rr with status := TaskStatus.failed, endTime := some now }, k⟩], true)

/-! ## JavaScript Map as an association list

`Map.prototype.set` updates an existing key in place (keeping its insertion
position) and otherwise appends; `Map.prototype.get` returns the stored value
or undefined. -/

def mapSet {α : Type} (m : List (String × α)) (k : String) (v : α) :
    List (String × α) :=
  if m.any (fun p => p.1 = k) then
    m.map (fun p => if p.1 = k then (k, v) else p)
  else m ++ [(k, v)]

def mapGet {α : Type} (m : List (String × α)) (k : String) : Option α :=
  (m.find? (fun p => p.1 = k)).map (fun p => p.2)

/-! ## Orchestrator and process-manager state -/

/-- Observable state of NarupaProcessManager (src/src/types.ts, the v1.0
class, lines 118-479): whether `bridgeProcess` is non-null and the key sets of
the `servers` and `pendingRequests` maps. -/
structure PMState where
  bridge : Bool
  servers : List Nat
  pendingRequests : List Nat
deriving DecidableEq, Repr

/-- NarupaProcessManager.shutdown (types.ts lines 425-464).  When
`bridgeProcess` is null it returns at once; otherwise, whatever the try block
does (any error is caught, the process force-killed), the finally block nulls
the bridge and clears the `servers` and `pendingRequests` maps, so the
function never throws and always ends with an empty manager. -/
def pmShutdown (p : PMState) : PMState :=
  if p.bridge = false then p
  else { bridge := false, servers := [], pendingRequests := [] }

/-- Mutable fields of NarupaOrchestrator (narupa-orchestrator.ts lines 74-79).
The graph links (children/parents) are built by buildDependencyGraph only when
a run starts and are modelled in the scheduler section below; at registration
time both link lists are empty. -/
structure Orch where
  tasks : List (String × Task)
  results : List (String × TaskResult)
  runningTasks : Int
  maxParallel : Int
  pm : PMState

/-- addTask (narupa-orchestrator.ts lines 97-112): builds a fresh node whose
result is PENDING with retryCount 0 and startTime read from the clock at
registration, then stores it in both maps.  There is no duplicate check: `set`
on an existing id replaces the stored node and result. -/
def addTask (s : Orch) (t : Task) (now : Nat) : Orch :=
  { s with tasks := mapSet s.tasks t.id t,
           results := mapSet s.results t.id (freshResult t.id now) }

/-- getResult (lines 402-404). -/
def getResult (s : Orch) (taskId : String) : Option TaskResult :=
  mapGet s.results taskId

/-- getAllResults (lines 409-411): a snapshot copy of the results map. -/
def getAllResults (s : Orch) : List (String × TaskResult) :=
  s.results

/-- Return type of getStatistics (lines 416-422). -/
structure Stats where
  total : Nat
  completed : Nat
  failed : Nat
  pending : Nat
  running : Nat
deriving DecidableEq, Repr

/-- The counting loop of getStatistics (lines 428-445): one pass over the
results, a switch incrementing completed / failed / pending, with RUNNING,
RETRYING and WAITING_HITL all incrementing the `running` bucket. -/
def statsLoop : List (String × TaskResult) → Nat × Nat × Nat × Nat
  | [] => (0, 0, 0, 0)
  | p :: rest =>
    let acc := statsLoop rest
    match p.2.status with
    | .completed => (acc.1 + 1, acc.2.1, acc.2.2.1, acc.2.2.2)
    | .failed => (acc.1, acc.2.1 + 1, acc.2.2.1, acc.2.2.2)
    | .pending => (acc.1, acc.2.1, acc.2.2.1 + 1, acc.2.2.2)
    | .running => (acc.1, acc.2.1, acc.2.2.1, acc.2.2.2 + 1)
    | .retrying => (acc.1, acc.2.1, acc.2.2.1, acc.2.2.2 + 1)
    | .waitingHitl => (acc.1, acc.2.1, acc.2.2.1, acc.2.2.2 + 1)

/-- getStatistics (lines 416-454): total is the size of the results map. -/
def getStatistics (s : Orch) : Stats :=
  let acc := statsLoop s.results
  { total := s.results.length, completed := acc.1, failed := acc.2.1,
    pending := acc.2.2.1, running := acc.2.2.2 }

/-- cleanup (lines 391-397): shuts the process manager down, clears both maps
and zeroes the in-flight counter.  Total: pmShutdown never throws. -/
def cleanup (s : Orch) : Orch :=
  { tasks := [], results := [], runningTasks := 0, maxParallel := s.maxParallel,
    pm := pmShutdown s.pm }

/-- hasIncompleteTasks (lines 343-353) classifies PENDING, RUNNING,
WAITING_HITL and RETRYING as incomplete; this is its complement on one
status. -/
def isTerminal : TaskStatus → Bool
  | .completed => true
  | .failed => true
  | _ => false

/-- executeAll (lines 296-338) specialised to a single registered task with no
dependencies: the first loop iteration finds the task ready and dispatches it
(runningTasks 0 is below the ceiling); the promise of executeTask is awaited
with no enclosing try - directly at line 320 when the task is not parallel,
and through `await Promise.race` at line 326 otherwise - so a rejection of
executeTask propagates out of executeAll.  If the promise resolves, the loop
exits only once hasIncompleteTasks is false; `none` models the run never
terminating because a non-terminal result remains forever. -/
def runAllSingle (env : Env) (t : Task) (now : Nat) :
    Option (Except Unit (List (String × TaskResult))) :=
  let out := execTask env t (freshResult t.id now) 0 now
  let final := out.1.map fun o => (o.res.taskId, o.res)
  if out.2 then some (Except.error ())
  else if final.all (fun p => isTerminal p.2.status) then some (Except.ok final)
  else none

/-! ## Scheduler small-step system

The interleaved behaviour of executeAll plus the concurrently running
executeTask state machines (narupa-orchestrator.ts lines 177-338) is modelled
as a small-step transition relation.  Each step is one atomic state mutation
the JavaScript event loop can perform between awaits; a derivation chooses one
interleaving, and every constructor is justified by the quoted source lines. -/

/-- Scheduler-visible state: the node ids present in the tasks map, the parent
links built by buildDependencyGraph (and extended by fallback substitution),
the recorded status of each node, and the `runningTasks` counter (a JavaScript
number: it is allowed to go negative, hence Int). -/
structure SchedState where
  nodes : List String
  parents : String → List String
  status : String → TaskStatus
  runningTasks : Int
  maxParallel : Int

def setFun {α : Type} (f : String → α) (k : String) (v : α) : String → α :=
  fun x => if x = k then v else f x

/-- One atomic transition of the orchestrator run.

* `dispatch`: executeAll lines 305-315 guarded by getReadyTasks lines 137-159
  (status PENDING and every parent COMPLETED; hasRequiredCapabilities always
  returns true, lines 164-172) and by the ceiling check line 310; the
  dispatched executeTask sets RUNNING at line 183 and runningTasks was
  incremented at line 314.
* `hitlEnter`: line 206, a running task with a HITL gate suspends.
* `hitlResume`: line 220, approval granted.
* `complete`: lines 228-229 plus the frame exit decrement at line 274.
* `failRetry`: lines 237-239, a failed attempt with retry budget left goes to
  RETRYING (the frame has not exited yet, so no decrement).
* `retryRestart`: line 244, `return this.executeTask(node)`: the recursive
  call sets RUNNING at line 183, and the calling frame then exits through its
  finally block, decrementing runningTasks at line 274 even though the task is
  still in flight.
* `failFinal`: lines 268-272 plus the finally decrement.
* `fallbackSub`: lines 248-264: with retries exhausted and a fallback
  configured, a brand-new node is registered inheriting the original parents,
  `return this.executeTask(fallbackNode)` starts it (RUNNING at line 183), the
  original status is left as it stood, and the calling frame exits through its
  finally block, decrementing runningTasks. -/
inductive Step : SchedState → SchedState → Prop where
  | dispatch (s : SchedState) (id : String)
      (hmem : id ∈ s.nodes) (hstat : s.status id = TaskStatus.pending)
      (hdeps : ∀ p ∈ s.parents id, s.status p = TaskStatus.completed)
      (hcap : s.runningTasks < s.maxParallel) :
      Step s { s with status := setFun s.status id TaskStatus.running,
                      runningTasks := s.runningTasks + 1 }
  | hitlEnter (s : SchedState) (id : String)
      (hstat : s.status id = TaskStatus.running) :
      Step s { s with status := setFun s.status id TaskStatus.waitingHitl }
  | hitlResume (s : SchedState) (id : String)
      (hstat : s.status id = TaskStatus.waitingHitl) :
      Step s { s with status := setFun s.status id TaskStatus.running }
  | complete (s : SchedState) (id : String)
      (hstat : s.status id = TaskStatus.running) :
      Step s { s with status := setFun s.status id TaskStatus.completed,
                      runningTasks := s.runningTasks - 1 }
  | failRetry (s : SchedState) (id : String)
      (hstat : s.status id = TaskStatus.running ∨
               s.status id = TaskStatus.waitingHitl) :
      Step s { s with status := setFun s.status id TaskStatus.retrying }
  | retryRestart (s : SchedState) (id : String)
      (hstat : s.status id = TaskStatus.retrying) :
      Step s { s with status := setFun s.status id TaskStatus.running,
                      runningTasks := s.runningTasks - 1 }
  | failFinal (s : SchedState) (id : String)
      (hstat : s.status id = TaskStatus.running ∨
               s.status id = TaskStatus.waitingHitl) :
      Step s { s with status := setFun s.status id TaskStatus.failed,
                      runningTasks := s.runningTasks - 1 }
  | fallbackSub (s : SchedState) (origId newId : String)
      (horig : s.status origId = TaskStatus.running ∨
               s.status origId = TaskStatus.waitingHitl)
      (hnew : newId ∉ s.nodes) :
      Step s { s with nodes := s.nodes ++ [newId],
                      parents := setFun s.parents newId (s.parents origId),
                      status := setFun s.status newId TaskStatus.running,
                      runningTasks := s.runningTasks - 1 }

/-- State at the start of executeAll, after buildDependencyGraph (lines
117-132): every declared dependency id becomes a parent link, every status is
PENDING, no task is in flight.  `decls` lists each task id with its declared
dependencies, in registration order. -/
def initState (decls : List (String × List String)) (maxPar : Int) : SchedState :=
  { nodes := decls.map (fun d => d.1),
    parents := fun x => (((decls.find? (fun d => d.1 = x)).map (fun d => d.2)).getD []),
    status := fun _ => TaskStatus.pending,
    runningTasks := 0,
    maxParallel := maxPar }

/-- Reachability along scheduler steps. -/
def Reaches (s s' : SchedState) : Prop :=
  Relation.ReflTransGen Step s s'

/-- A status that occupies a concurrency slot: the task is dispatched and not
yet terminal (RUNNING, WAITING_HITL or RETRYING). -/
def isActive : TaskStatus → Bool
  | .running => true
  | .waitingHitl => true
  | .retrying => true
  | _ => false

/-- Number of simultaneously active tasks among the given ids. -/
def countActive (s : SchedState) (ids : List String) : Nat :=
  (ids.filter (fun i => isActive (s.status i))).length

/-- Invariant carried along scheduler steps: an id outside the tasks map is
still PENDING, and any node that has ever started (status no longer PENDING)
started only after every parent was COMPLETED. -/
def StatusInv (s : SchedState) : Prop :=
  (∀ id, id ∉ s.nodes → s.status id = TaskStatus.pending) ∧
  (∀ id, s.status id ≠ TaskStatus.pending →
    ∀ p ∈ s.parents id, s.status p = TaskStatus.completed)

/-! ## Concrete instances used in the closed theorems -/

/-- A backend whose every start attempt fails (acquisition failure); no
approval callback configured. -/
def envAcqFail : Env :=
  { startOk := fun _ => false, serverPid := fun _ => 0, serverPort := fun _ => 0,
    hitlCallback := none, completionOk := fun _ => false }

/-- A backend whose first start attempt (index 0) fails and all later ones
succeed and run to completion; no approval callback configured. -/
def envFailFirst : Env :=
  { startOk := fun n => decide (1 ≤ n), serverPid := fun n => 100 + n,
    serverPort := fun n => 38801 + n, hitlCallback := none,
    completionOk := fun _ => true }

/-- A backend that always starts and completes; no approval callback is set
(`setHITLCallback` was never called, so `this.hitlCallback` is null). -/
def envNoCallback : Env :=
  { startOk := fun _ => true, serverPid := fun n => 100 + n,
    serverPort := fun n => 38801 + n, hitlCallback := none,
    completionOk := fun _ => true }

/-- A plain task used as fallback: no gate, no retries, no further fallback. -/
def taskPlainF : Task :=
  Task.mk "f" "Fallback" "docking" "cfg" [] false none 0 true []

/-- A task whose retry budget is already exhausted on the first failure
(maxRetries 0) and that has a configured fallback. -/
def taskWithFallback : Task :=
  Task.mk "x" "Primary" "docking" "cfg" [] false (some taskPlainF) 0 true []

/-- Scenario task D of the spec: maxRetries 2, no fallback, not parallel. -/
def taskD : Task :=
  Task.mk "d" "D" "docking" "cfg" [] false none 2 false []

/-- A HITL-gated task with a fallback and no retry budget. -/
def taskHitlFb : Task :=
  Task.mk "h" "Gated" "analysis" "cfg" [] true (some taskPlainF) 0 false []

/-- A HITL-gated task with one retry and no fallback. -/
def taskHitlPlain : Task :=
  Task.mk "g" "Gated2" "analysis" "cfg" [] true none 1 false []

def taskA : Task :=
  Task.mk "a" "A" "simulation" "cfg" [] false none 0 true []

/-- A second task carrying the same id "a" as taskA. -/
def taskA2 : Task :=
  Task.mk "a" "A again" "simulation" "cfg2" [] false none 1 true []

/-- A terminal result recorded for id "a". -/
def resultA : TaskResult :=
  { taskId := "a", status := TaskStatus.completed, startTime := 0, retryCount := 0,
    endTime := some 3 }

/-- An orchestrator that already holds task "a" with a Completed result, a
live bridge process and one backend server. -/
def orchWithA : Orch :=
  { tasks := [("a", taskA)], results := [("a", resultA)], runningTasks := 0,
    maxParallel := 4,
    pm := { bridge := true, servers := [7], pendingRequests := [] } }

/-- Graph declarations: b depends on a. -/
def declsPair : List (String × List String) := [("a", []), ("b", ["a"])]

/-- Graph declarations: four independent tasks. -/
def declsQuad : List (String × List String) :=
  [("a", []), ("b", []), ("c", []), ("d", [])]

/-- Trace for the dependency-order witness, over declsPair with ceiling 4:
dispatch a, complete a, dispatch b. -/
def st0 : SchedState := initState declsPair 4

def st1 : SchedState :=
  { st0 with status := setFun st0.status "a" TaskStatus.running,
             runningTasks := st0.runningTasks + 1 }

def st2 : SchedState :=
  { st1 with status := setFun st1.status "a" TaskStatus.completed,
             runningTasks := st1.runningTasks - 1 }

def st3 : SchedState :=
  { st2 with status := setFun st2.status "b" TaskStatus.running,
             runningTasks := st2.runningTasks + 1 }

/-- Trace exhibiting the broken in-flight accounting, over declsQuad with
ceiling 2.  Realisable timing: a and b are dispatched in the first loop
iteration (both fit under the ceiling); a fails its first attempt quickly and
waits out its 1 s backoff; when the backoff elapses the retry re-enters
executeTask and the outer frame exits through its finally block, freeing a
slot while a is still running; b then completes, resolving the race, and the
next loop iteration finds runningTasks = 0 and dispatches both c and d while
a is still in flight. -/
def u0 : SchedState := initState declsQuad 2

def u1 : SchedState :=
  { u0 with status := setFun u0.status "a" TaskStatus.running,
            runningTasks := u0.runningTasks + 1 }

def u2 : SchedState :=
  { u1 with status := setFun u1.status "b" TaskStatus.running,
            runningTasks := u1.runningTasks + 1 }

def u3 : SchedState :=
  { u2 with status := setFun u2.status "a" TaskStatus.retrying }

def u4 : SchedState :=
  { u3 with status := setFun u3.status "a" TaskStatus.running,
            runningTasks := u3.runningTasks - 1 }

def u5 : SchedState :=
  { u4 with status := setFun u4.status "b" TaskStatus.completed,
            runningTasks := u4.runningTasks - 1 }

def u6 : SchedState :=
  { u5 with status := setFun u5.status "c" TaskStatus.running,
            runningTasks := u5.runningTasks + 1 }

def u7 : SchedState :=
  { u6 with status := setFun u6.status "d" TaskStatus.running,
            runningTasks := u6.runningTasks + 1 }

/-! ## Map lemmas -/

theorem find?_map_upd {α : Type} (m : List (String × α)) (k : String) (v : α)
    (hm : m.any (fun p => p.1 = k) = true) :
    (m.map (fun p => if p.1 = k then (k, v) else p)).find? (fun p => p.1 = k) =
      some (k, v) := by
  induction m with
  | nil => simp at hm
  | cons p rest ih =>
    by_cases hp : p.1 = k
    · simp [List.find?, hp]
    · have hrest : rest.any (fun q => q.1 = k) = true := by
        simpa [hp] using hm
      simpa [List.find?, hp] using ih hrest

theorem find?_append_last {α : Type} (m : List (String × α)) (k : String) (v : α)
    (hm : m.any (fun p => p.1 = k) = false) :
    (m ++ [(k, v)]).find? (fun p => p.1 = k) = some (k, v) := by
  induction m with
  | nil => simp [List.find?]
  | cons p rest ih =>
    have hp : ¬ (p.1 = k) := by
      intro h
      simp [h] at hm
    have hrest : rest.any (fun q => q.1 = k) = false := by
      simpa [hp] using hm
    simpa [List.find?, hp] using ih hrest

theorem find?_map_upd_ne {α : Type} (m : List (String × α)) (k k' : String) (v : α)
    (hne : k' ≠ k) :
    (m.map (fun p => if p.1 = k then (k, v) else p)).find? (fun p => p.1 = k') =
      m.find? (fun p => p.1 = k') := by
  induction m with
  | nil => rfl
  | cons p rest ih =>
    by_cases hp : p.1 = k
    · have h2 : ¬ (p.1 = k') := by
        rw [hp]
        exact fun h => hne h.symm
      rw [List.map_cons, if_pos hp,
        List.find?_cons_of_neg _ (by simpa using fun h => hne h.symm),
        List.find?_cons_of_neg _ (by simpa using h2)]
      exact ih
    · rw [List.map_cons, if_neg hp, List.find?_cons, List.find?_cons]
      cases hd : decide (p.1 = k')
      · simpa using ih
      · simp

theorem find?_append_ne {α : Type} (m : List (String × α)) (k k' : String) (v : α)
    (hne : k' ≠ k) :
    (m ++ [(k, v)]).find? (fun p => p.1 = k') = m.find? (fun p => p.1 = k') := by
  rw [List.find?_append]
  have h1 : ([(k, v)].find? (fun p => p.1 = k')) = none := by
    simp [List.find?, Ne.symm hne]
  rw [h1]
  cases m.find? (fun p => p.1 = k') <;> rfl

theorem mapGet_mapSet_self {α : Type} (m : List (String × α)) (k : String) (v : α) :
    mapGet (mapSet m k v) k = some v := by
  unfold mapSet mapGet
  by_cases hm : m.any (fun p => p.1 = k) = true
  · simp [hm, find?_map_upd m k v hm]
  · have hm' : m.any (fun p => p.1 = k) = false := by
      cases h : m.any (fun p => p.1 = k)
      · rfl
      · exact absurd h hm
    simp [hm', find?_append_last m k v hm']

theorem mapGet_mapSet_ne {α : Type} (m : List (String × α)) (k k' : String) (v : α)
    (hne : k' ≠ k) : mapGet (mapSet m k v) k' = mapGet m k' := by
  unfold mapSet mapGet
  by_cases hm : m.any (fun p => p.1 = k) = true
  · simp [hm, find?_map_upd_ne m k k' v hne]
  · have hm' : m.any (fun p => p.1 = k) = false := by
      cases h : m.any (fun p => p.1 = k)
      · rfl
      · exact absurd h hm
    simp [hm', find?_append_ne m k k' v hne]

/-! ## Statistics -/

theorem statsLoop_sum (rs : List (String × TaskResult)) :
    rs.length = (statsLoop rs).1 + (statsLoop rs).2.1 + (statsLoop rs).2.2.1 +
      (statsLoop rs).2.2.2 := by
  induction rs with
  | nil => simp [statsLoop]
  | cons p rest ih =>
    cases h : p.2.status <;> simp [statsLoop, h] <;> omega

/-- C7: at every observation point, getStatistics returns counts with
total = completed + failed + pending + running, where the running bucket
counts RUNNING, RETRYING and WAITING_HITL results and total is the number of
TaskResults currently held.  The state `s` is arbitrary, so the identity holds
mid-run as well. -/
theorem getStatistics_total_eq_sum (s : Orch) :
    (getStatistics s).total =
      (getStatistics s).completed + (getStatistics s).failed +
        (getStatistics s).pending + (getStatistics s).running := by
  simpa [getStatistics] using statsLoop_sum s.results

/-! ## Registration (addTask) -/

/-- C5 counterexample: with "a" already registered (its recorded result is
Completed), addTask on a second task carrying the same id "a" does not fail:
it runs to completion and replaces the stored result with a fresh Pending one,
so the registered state is not left unchanged either. -/
theorem addTask_duplicate_overwrites :
    getResult orchWithA "a" = some resultA ∧
    getResult (addTask orchWithA taskA2 5) "a" = some (freshResult "a" 5) ∧
    resultA ≠ freshResult "a" 5 := by
  refine ⟨rfl, ?_, by decide⟩
  simpa [getResult, addTask, taskA2, Task.id] using
    mapGet_mapSet_self orchWithA.results "a" (freshResult "a" 5)

/-- C5 amended: addTask never rejects; registering a task whose id is already
present replaces the stored task and result of that id with a fresh
registration (result Pending, retryCount 0), and the registration of every
other id is
unchanged. -/
theorem addTask_duplicate_replaces (s : Orch) (t : Task) (now : Nat) :
    getResult (addTask s t now) t.id = some (freshResult t.id now) ∧
    (∀ k, k ≠ t.id → getResult (addTask s t now) k = getResult s k ∧
      mapGet (addTask s t now).tasks k = mapGet s.tasks k) := by
  refine ⟨mapGet_mapSet_self _ _ _, fun k hk => ⟨?_, ?_⟩⟩
  · exact mapGet_mapSet_ne _ _ _ _ hk
  · exact mapGet_mapSet_ne _ _ _ _ hk

/-- Witness for the amended C5 statement at a concrete duplicate
registration. -/
theorem addTask_duplicate_replaces_witness :
    getResult (addTask orchWithA taskA2 5) "a" = some (freshResult "a" 5) ∧
    getResult (addTask orchWithA taskA2 5) "zz" = getResult orchWithA "zz" :=
  ⟨(addTask_duplicate_replaces orchWithA taskA2 5).1,
   ((addTask_duplicate_replaces orchWithA taskA2 5).2 "zz" (by decide)).1⟩

/-- C10: immediately after addTask(t), getResult(t.id) is a Pending result
with retryCount 0 whose startTime is the clock value read at registration
time, the id is present in getAllResults, and it is counted in
getStatistics().total. -/
theorem addTask_initial_result (s : Orch) (t : Task) (now : Nat) :
    getResult (addTask s t now) t.id =
      some { taskId := t.id, status := TaskStatus.pending, startTime := now,
             retryCount := 0 } ∧
    (getAllResults (addTask s t now)).any (fun p => p.1 = t.id) = true ∧
    1 ≤ (getStatistics (addTask s t now)).total := by
  have h1 : getResult (addTask s t now) t.id = some (freshResult t.id now) :=
    mapGet_mapSet_self _ _ _
  have hfind := h1
  unfold getResult addTask mapGet at hfind
  obtain ⟨q, hq, hq2⟩ := Option.map_eq_some'.1 hfind
  have hmem := List.mem_of_find?_eq_some hq
  have hpred : (q.1 = t.id) := by
    simpa using List.find?_some hq
  refine ⟨h1, ?_, ?_⟩
  · exact List.any_eq_true.2 ⟨q, hmem, by simp [hpred]⟩
  · exact List.length_pos_of_mem hmem

/-! ## Cleanup (C8) -/

theorem pmShutdown_idem (p : PMState) : pmShutdown (pmShutdown p) = pmShutdown p := by
  unfold pmShutdown
  by_cases hb : p.bridge = false <;> simp [hb]

/-- C8: cleanup is idempotent.  cleanup and pmShutdown are total functions in
the model because shutdown catches every error of its try block (force-killing
the bridge) and its finally block always clears the manager, so neither call
raises; after each of the two calls the task map, the result map and the
in-flight counter are empty and no backend server remains.  The hypothesis is
the process-manager invariant that a null bridge process implies an empty
server table (the servers map is cleared whenever the bridge exits, types.ts
line 188, and in the shutdown finally block, line 459). -/
theorem cleanup_idempotent (s : Orch)
    (hinv : s.pm.bridge = false → s.pm.servers = []) :
    cleanup (cleanup s) = cleanup s ∧
    (cleanup s).tasks = [] ∧ (cleanup s).results = [] ∧
    (cleanup s).runningTasks = 0 ∧ (cleanup s).pm.servers = [] := by
  refine ⟨?_, rfl, rfl, rfl, ?_⟩
  · simp [cleanup, pmShutdown_idem]
  · unfold cleanup pmShutdown
    by_cases hb : s.pm.bridge = false
    · simp [hb, hinv hb]
    · simp [hb]

theorem cleanup_idempotent_witness :
    cleanup (cleanup orchWithA) = cleanup orchWithA ∧
    (cleanup orchWithA).tasks = [] ∧ (cleanup orchWithA).results = [] ∧
    (cleanup orchWithA).runningTasks = 0 ∧
    (cleanup orchWithA).pm.servers = [] :=
  cleanup_idempotent orchWithA (by decide)

/-! ## Executor bugs observable on concrete runs (C1, C2) -/

/-- C1: the code violates the claim.  Task "x" has maxRetries 0 and fallback
"f"; the backend fails the first start attempt and succeeds afterwards.
Exactly one new node ("f") is substituted and completes, but the original
recorded status of the original node stays RUNNING: the early `return
this.executeTask(fallbackNode)` at line 264 of narupa-orchestrator.ts skips
the `result.status = TaskStatus.FAILED` marking at line 268.  Consequently
hasIncompleteTasks() never becomes false and the run never ends
(runAllSingle = none). -/
theorem fallback_skips_failed_marking :
    ((execTask envFailFirst taskWithFallback (freshResult "x" 0) 0 0).1.map
        (fun o => (o.res.taskId, o.res.status, o.res.retryCount))) =
      [("x", TaskStatus.running, 0), ("f", TaskStatus.completed, 0)] ∧
    runAllSingle envFailFirst taskWithFallback 0 = none :=
  ⟨by rfl, by rfl⟩

/-- C2: the code violates the claim.  A single registered, non-parallel task
with maxRetries 2 and a backend that always fails acquisition is marked FAILED
in the result map, but executeTask rethrows the error (line 272) and
executeAll awaits the promise with no enclosing try (line 320; for parallel
tasks the rejection instead surfaces at `await Promise.race`, line 326), so
runAll rejects instead of resolving with the result map. -/
theorem runAll_rejects_on_task_failure :
    runAllSingle envAcqFail taskD 0 = some (Except.error ()) ∧
    ((execTask envAcqFail taskD (freshResult "d" 0) 0 0).1.map
        (fun o => (o.res.taskId, o.res.status))) =
      [("d", TaskStatus.failed)] :=
  ⟨by rfl, by rfl⟩

/-! ## Retry budget (C3) -/

/-- Against a backend whose every start attempt fails, the retry loop with
budget b performs exactly b + 1 start attempts and ends in the error state
with the retry counter advanced by b. -/
theorem attemptLoop_startFail (env : Env) (t : Task)
    (h : ∀ k, env.startOk k = false) :
    ∀ (b : Nat) (r : TaskResult) (ctr now : Nat),
      attemptLoop env t b r ctr now =
        (AttemptOut.err { r with status := TaskStatus.running, hasError := true,
                                 retryCount := r.retryCount + b }, b + 1) := by
  intro b
  induction b with
  | zero =>
    intro r ctr now
    simp [attemptLoop, oneAttempt, h]
  | succ n ih =>
    intro r ctr now
    simp [attemptLoop, oneAttempt, h, ih, Nat.add_assoc, Nat.add_comm 1 n]

/-- C3: for a task with maxRetries = n whose every start attempt fails, the
executor performs exactly n + 1 start attempts on the node before the node is
marked FAILED or a fallback is substituted, and the recorded retryCount is n;
when no fallback is configured the node is the only one, its final status is
FAILED, and the rethrown error makes the promise reject. -/
theorem executor_retry_budget (env : Env) (t : Task) (id : String) (ctr now : Nat)
    (hfail : ∀ k, env.startOk k = false) :
    ∃ (out : NodeOut) (rest : List NodeOut),
      (execTask env t (freshResult id now) ctr now).1 = out :: rest ∧
      out.attempts = t.maxRetries + 1 ∧
      out.res.retryCount = t.maxRetries ∧
      (t.fallback = none →
        out.res.status = TaskStatus.failed ∧ rest = [] ∧
        (execTask env t (freshResult id now) ctr now).2 = true) := by
  cases t with
  | mk i n ty cfg deps gate fb mr par cap =>
    have hloop := attemptLoop_startFail env (Task.mk i n ty cfg deps gate fb mr par cap)
      hfail mr (freshResult id now) ctr now
    cases fb with
    | none =>
      refine ⟨⟨Task.mk i n ty cfg deps gate none mr par cap,
        { freshResult id now with
          status := TaskStatus.failed, hasError := true,
          retryCount := mr, endTime := some now }, mr + 1⟩, [], ?_, rfl, rfl, ?_⟩
      · simp only [execTask, Task.maxRetries, freshResult, Nat.sub_zero] at hloop ⊢
        rw [hloop]
        simp
      · exact fun _ => ⟨rfl, rfl, by
          simp only [execTask, Task.maxRetries, freshResult, Nat.sub_zero] at hloop ⊢
          rw [hloop]⟩
    | some fbt =>
      refine ⟨⟨Task.mk i n ty cfg deps gate (some fbt) mr par cap,
        { freshResult id now with
          status := TaskStatus.running, hasError := true,
          retryCount := mr }, mr + 1⟩,
        (execTask env fbt (freshResult fbt.id now) (ctr + (mr + 1)) now).1, ?_, rfl, rfl, ?_⟩
      · simp only [execTask, Task.maxRetries, freshResult, Nat.sub_zero] at hloop ⊢
        rw [hloop]
        simp
      · intro hcontra
        exact absurd hcontra (by simp [Task.fallback])

/-- Witness: scenario task D (maxRetries 2, no fallback) against the
always-failing backend: exactly 3 start attempts, final retryCount 2, final
status FAILED. -/
theorem executor_retry_budget_witness :
    ∃ (out : NodeOut) (rest : List NodeOut),
      (execTask envAcqFail taskD (freshResult "d" 0) 0 0).1 = out :: rest ∧
      out.attempts = taskD.maxRetries + 1 ∧
      out.res.retryCount = taskD.maxRetries ∧
      (taskD.fallback = none →
        out.res.status = TaskStatus.failed ∧ rest = [] ∧
        (execTask envAcqFail taskD (freshResult "d" 0) 0 0).2 = true) :=
  executor_retry_budget envAcqFail taskD "d" 0 0 (fun _ => rfl)

/-! ## HITL gate without a configured callback (C9) -/

/-- With no approval callback set, every attempt of a gated task that acquires
its backend unit throws at the gate while the status is WAITING_HITL; the
retry loop consumes the whole budget and ends in the error state still showing
WAITING_HITL. -/
theorem attemptLoop_hitl_noCb (env : Env) (t : Task)
    (hcb : env.hitlCallback = none) (hgate : t.hitlGate = true)
    (hstart : ∀ k, env.startOk k = true) :
    ∀ (b : Nat) (r : TaskResult) (ctr now : Nat),
      attemptLoop env t b r ctr now =
        (AttemptOut.err
          { r with status := TaskStatus.waitingHitl,
                   serverId := some (env.serverPid (ctr + b)),
                   port := some (env.serverPort (ctr + b)),
                   hasError := true, retryCount := r.retryCount + b }, b + 1) := by
  intro b
  induction b with
  | zero =>
    intro r ctr now
    simp [attemptLoop, oneAttempt, hcb, hgate, hstart]
  | succ n ih =>
    intro r ctr now
    simp [attemptLoop, oneAttempt, hcb, hgate, hstart, ih, Nat.add_assoc,
      Nat.add_comm 1 n]

/-- C9 amended: if the approval gate is reached with no callback set, the
attempt fails with an error routed through the generic retry/fallback/failure
handling - it consumes the whole retry budget like any other failure - and
when no fallback is configured the node ends FAILED (not stuck waiting) with
the error rethrown.  (When a fallback is configured the substituted node runs,
but the recorded status of the original node stays WAITING_HITL; see the
counterexample.) -/
theorem hitl_no_callback_routed (env : Env) (t : Task) (id : String) (ctr now : Nat)
    (hcb : env.hitlCallback = none) (hgate : t.hitlGate = true)
    (hfb : t.fallback = none) (hstart : ∀ k, env.startOk k = true) :
    ∃ out : NodeOut,
      (execTask env t (freshResult id now) ctr now).1 = [out] ∧
      (execTask env t (freshResult id now) ctr now).2 = true ∧
      out.res.status = TaskStatus.failed ∧
      out.res.retryCount = t.maxRetries ∧
      out.res.hasError = true ∧
      out.attempts = t.maxRetries + 1 := by
  cases t with
  | mk i n ty cfg deps gate fb mr par cap =>
    cases fb with
    | some fbt => exact absurd hfb (by simp [Task.fallback])
    | none =>
      have hloop := attemptLoop_hitl_noCb env
        (Task.mk i n ty cfg deps gate none mr par cap) hcb hgate hstart mr
        (freshResult id now) ctr now
      refine ⟨⟨Task.mk i n ty cfg deps gate none mr par cap,
        { freshResult id now with
          status := TaskStatus.failed,
          serverId := some (env.serverPid (ctr + mr)),
          port := some (env.serverPort (ctr + mr)),
          hasError := true, retryCount := mr, endTime := some now }, mr + 1⟩,
        ?_, ?_, rfl, rfl, rfl, rfl⟩
      · simp only [execTask, Task.maxRetries, freshResult, Nat.sub_zero] at hloop ⊢
        rw [hloop]
        simp
      · simp only [execTask, Task.maxRetries, freshResult, Nat.sub_zero] at hloop ⊢
        rw [hloop]

/-- Witness: gated task with maxRetries 1, no fallback, no callback set,
always-acquiring backend: two attempts, final status FAILED. -/
theorem hitl_no_callback_routed_witness :
    ∃ out : NodeOut,
      (execTask envNoCallback taskHitlPlain (freshResult "g" 0) 0 0).1 = [out] ∧
      (execTask envNoCallback taskHitlPlain (freshResult "g" 0) 0 0).2 = true ∧
      out.res.status = TaskStatus.failed ∧
      out.res.retryCount = taskHitlPlain.maxRetries ∧
      out.res.hasError = true ∧
      out.attempts = taskHitlPlain.maxRetries + 1 :=
  hitl_no_callback_routed envNoCallback taskHitlPlain "g" 0 0 rfl rfl rfl
    (fun _ => rfl)

/-- C9 counterexample: a gated task with a fallback and no callback set does
remain in WAITING_HITL forever: the fallback node is substituted and
completes, but the recorded status of the original node stays WAITING_HITL and the
run never ends (runAllSingle = none). -/
theorem hitl_no_callback_stays_waiting :
    ((execTask envNoCallback taskHitlFb (freshResult "h" 0) 0 0).1.map
        (fun o => (o.res.taskId, o.res.status))) =
      [("h", TaskStatus.waitingHitl), ("f", TaskStatus.completed)] ∧
    runAllSingle envNoCallback taskHitlFb 0 = none :=
  ⟨by rfl, by rfl⟩

/-! ## Dependency ordering along scheduler runs (C4) -/

/-- Preservation of StatusInv under a step that only rewrites the status of a
node whose current status is neither PENDING nor COMPLETED (and possibly the
in-flight counter). -/
theorem statusInv_setFun {s : SchedState} (nid : String) (v : TaskStatus)
    (rt : Int) (hs : StatusInv s) (hnp : s.status nid ≠ TaskStatus.pending)
    (hnc : s.status nid ≠ TaskStatus.completed) :
    StatusInv { s with status := setFun s.status nid v, runningTasks := rt } := by
  obtain ⟨hn, hd⟩ := hs
  constructor
  · intro j hj
    have hj2 : j ∉ s.nodes := hj
    simp only [setFun]
    by_cases hji : j = nid
    · have := hn j hj2
      rw [hji] at this
      exact absurd this hnp
    · rw [if_neg hji]
      exact hn j hj2
  · intro j hj p hp
    have hp2 : p ∈ s.parents j := hp
    simp only [setFun] at hj ⊢
    have hjnp : s.status j ≠ TaskStatus.pending := by
      by_cases hji : j = nid
      · rw [hji]
        exact hnp
      · rwa [if_neg hji] at hj
    have hcmp : s.status p = TaskStatus.completed := hd j hjnp p hp2
    by_cases hpi : p = nid
    · rw [hpi] at hcmp
      exact absurd hcmp hnc
    · rw [if_neg hpi]
      exact hcmp

/-- Every scheduler step preserves StatusInv: the status of a node leaves PENDING
only while all its parents are COMPLETED, no step ever leaves COMPLETED, and
a substituted fallback node inherits parents that were COMPLETED when the
original node started. -/
theorem statusInv_step {s s2 : SchedState} (h : Step s s2) (hs : StatusInv s) :
    StatusInv s2 := by
  obtain ⟨hn, hd⟩ := hs
  cases h with
  | dispatch nid hmem hstat hdeps hcap =>
    constructor
    · intro j hj
      have hj2 : j ∉ s.nodes := hj
      simp only [setFun]
      by_cases hji : j = nid
      · rw [hji] at hj2
        exact absurd hmem hj2
      · rw [if_neg hji]
        exact hn j hj2
    · intro j hj p hp
      have hp2 : p ∈ s.parents j := hp
      simp only [setFun] at hj ⊢
      by_cases hpi : p = nid
      · by_cases hji : j = nid
        · rw [hji] at hp2
          have hc := hdeps p hp2
          rw [hpi, hstat] at hc
          exact absurd hc (by decide)
        · rw [if_neg hji] at hj
          have hc := hd j hj p hp2
          rw [hpi, hstat] at hc
          exact absurd hc (by decide)
      · rw [if_neg hpi]
        by_cases hji : j = nid
        · rw [hji] at hp2
          exact hdeps p hp2
        · rw [if_neg hji] at hj
          exact hd j hj p hp2
  | hitlEnter nid hstat =>
    exact statusInv_setFun nid _ s.runningTasks ⟨hn, hd⟩
      (by rw [hstat]; decide) (by rw [hstat]; decide)
  | hitlResume nid hstat =>
    exact statusInv_setFun nid _ s.runningTasks ⟨hn, hd⟩
      (by rw [hstat]; decide) (by rw [hstat]; decide)
  | complete nid hstat =>
    exact statusInv_setFun nid _ (s.runningTasks - 1) ⟨hn, hd⟩
      (by rw [hstat]; decide) (by rw [hstat]; decide)
  | failRetry nid hstat =>
    refine statusInv_setFun nid _ s.runningTasks ⟨hn, hd⟩ ?_ ?_ <;>
      rcases hstat with h1 | h1 <;> rw [h1] <;> decide
  | retryRestart nid hstat =>
    exact statusInv_setFun nid _ (s.runningTasks - 1) ⟨hn, hd⟩
      (by rw [hstat]; decide) (by rw [hstat]; decide)
  | failFinal nid hstat =>
    refine statusInv_setFun nid _ (s.runningTasks - 1) ⟨hn, hd⟩ ?_ ?_ <;>
      rcases hstat with h1 | h1 <;> rw [h1] <;> decide
  | fallbackSub origId newId horig hnew =>
    have hnewPend : s.status newId = TaskStatus.pending := hn newId hnew
    have horignp : s.status origId ≠ TaskStatus.pending := by
      rcases horig with h1 | h1 <;> rw [h1] <;> decide
    constructor
    · intro j hj
      have hj1 : j ∉ s.nodes ++ [newId] := hj
      have hj2 : j ∉ s.nodes := fun hc => hj1 (List.mem_append_left _ hc)
      have hjne : j ≠ newId := by
        intro hc
        exact hj1 (by rw [hc]; exact List.mem_append_right _ (List.mem_singleton_self _))
      simp only [setFun]
      rw [if_neg hjne]
      exact hn j hj2
    · intro j hj p hp
      simp only [setFun] at hj hp ⊢
      by_cases hji : j = newId
      · rw [if_pos hji] at hp
        have hcmp := hd origId horignp p hp
        by_cases hpi : p = newId
        · rw [hpi] at hcmp
          rw [hcmp] at hnewPend
          exact absurd hnewPend (by decide)
        · rw [if_neg hpi]
          exact hcmp
      · rw [if_neg hji] at hj hp
        have hcmp := hd j hj p hp
        by_cases hpi : p = newId
        · rw [hpi] at hcmp
          rw [hcmp] at hnewPend
          exact absurd hnewPend (by decide)
        · rw [if_neg hpi]
          exact hcmp

theorem statusInv_reaches {s s2 : SchedState} (h : Reaches s s2)
    (hs : StatusInv s) : StatusInv s2 := by
  induction h with
  | refl => exact hs
  | tail _ hstep ih => exact statusInv_step hstep ih

theorem statusInv_initState (decls : List (String × List String)) (maxPar : Int) :
    StatusInv (initState decls maxPar) := by
  constructor
  · intro id _
    rfl
  · intro id hid
    exact absurd rfl hid

/-- C4: in every state reachable by the scheduler from the built dependency
graph, a node whose status is RUNNING has every parent node COMPLETED - a
node is never set RUNNING before its dependency nodes are all COMPLETED, and
COMPLETED is never left, so the parents remain COMPLETED throughout.  Parent
links are the declared dependencies for registered tasks (initState) and the
inherited links for substituted fallback nodes, exactly as buildDependencyGraph
and the fallback substitution set them. -/
theorem running_requires_deps_completed (decls : List (String × List String))
    (maxPar : Int) (s : SchedState)
    (hreach : Reaches (initState decls maxPar) s) (id p : String)
    (hrun : s.status id = TaskStatus.running) (hp : p ∈ s.parents id) :
    s.status p = TaskStatus.completed := by
  have hinv := statusInv_reaches hreach (statusInv_initState decls maxPar)
  exact hinv.2 id (by rw [hrun]; decide) p hp

/-- Witness for C4: after the trace dispatch a, complete a, dispatch b over
declsPair, node b is RUNNING and its parent a is COMPLETED. -/
theorem running_requires_deps_completed_witness :
    st3.status "a" = TaskStatus.completed :=
  running_requires_deps_completed declsPair 4 st3
    (Relation.ReflTransGen.tail (Relation.ReflTransGen.tail
      (Relation.ReflTransGen.tail Relation.ReflTransGen.refl
        (Step.dispatch st0 "a" (by decide) (by decide) (by decide) (by decide)))
      (Step.complete st1 "a" (by decide)))
      (Step.dispatch st2 "b" (by decide) (by decide) (by decide) (by decide)))
    "b" "a" (by decide) (by decide)

/-! ## Broken in-flight accounting (C6) -/

/-- C6: the code violates the claim.  Over four independent tasks with
ceiling 2, the scheduler reaches a state with three tasks simultaneously
active (a RUNNING in its second attempt, c and d RUNNING): the finally block
of executeTask decrements runningTasks once per recursion frame, so the
retryRestart step frees a slot while task a is still in flight, and the next
loop iteration dispatches both c and d.  Every step of the trace is a
realisable event-loop occurrence (see the comments on u0-u7). -/
theorem ceiling_exceeded_by_retry_frames :
    Reaches u0 u7 ∧ u7.maxParallel = 2 ∧
    countActive u7 ["a", "b", "c", "d"] = 3 := by
  refine ⟨?_, by decide, by decide⟩
  have h1 : Step u0 u1 :=
    Step.dispatch u0 "a" (by decide) (by decide) (by decide) (by decide)
  have h2 : Step u1 u2 :=
    Step.dispatch u1 "b" (by decide) (by decide) (by decide) (by decide)
  have h3 : Step u2 u3 := Step.failRetry u2 "a" (Or.inl (by decide))
  have h4 : Step u3 u4 := Step.retryRestart u3 "a" (by decide)
  have h5 : Step u4 u5 := Step.complete u4 "b" (by decide)
  have h6 : Step u5 u6 :=
    Step.dispatch u5 "c" (by decide) (by decide) (by decide) (by decide)
  have h7 : Step u6 u7 :=
    Step.dispatch u6 "d" (by decide) (by decide) (by decide) (by decide)
  exact Relation.ReflTransGen.tail (Relation.ReflTransGen.tail
    (Relation.ReflTransGen.tail (Relation.ReflTransGen.tail
      (Relation.ReflTransGen.tail (Relation.ReflTransGen.tail
        (Relation.ReflTransGen.tail Relation.ReflTransGen.refl h1) h2) h3)
          h4) h5) h6) h7

end HoloOrch
